import Mathlib

/-!
Verification of the gocontext selection and staleness engine (src/main.go).

The definitions below are a shallow embedding of the Go source: pure Go
functions become Lean functions; calls to external collaborators (go list,
git, the filesystem) become explicit inputs recorded in small state
structures.  Strings are modelled via their character lists (the tool only
handles ASCII paths, where Go byte indices and character indices agree);
timestamps are integers on one common timeline.
-/

namespace GoContext

/-! ## String primitives (embedding the strings/strconv operations used by main.go) -/

/-- Character-level replacement used by strings.Replace(s, "/", "_", -1). -/
def slashToU (c : Char) : Char := if c = '/' then '_' else c

/-- Embeds strings.Replace(s, "/", "_", -1): every slash becomes an underscore. -/
def replaceSlash (s : String) : String := ⟨s.data.map slashToU⟩

/-- Embeds strings.HasPrefix(s, pre). -/
def strHasPref (s pre : String) : Bool := pre.data.isPrefixOf s.data

/-- Embeds strings.TrimPrefix(s, pre): drops pre when it is a prefix, else returns s unchanged. -/
def strTrimPref (s pre : String) : String :=
  if strHasPref s pre then ⟨s.data.drop pre.data.length⟩ else s

/-- Embeds strings.ToLower for the ASCII names the tool compares. -/
def goToLower (s : String) : String := ⟨s.data.map Char.toLower⟩

/-- Whitespace as trimmed by strings.TrimSpace (ASCII subset of unicode.IsSpace). -/
def isSpaceGo (c : Char) : Bool :=
  c = ' ' || c = '\t' || c = '\n' || c = '\r' || c = '\x0b' || c = '\x0c'

/-- Embeds strings.TrimSpace. -/
def goTrimSpace (s : String) : String :=
  ⟨((s.data.dropWhile isSpaceGo).reverse.dropWhile isSpaceGo).reverse⟩

/-- Accumulates the decimal value of a digit list; none on a non-digit. -/
def decValAux : List Char → Nat → Option Nat
  | [], acc => some acc
  | c :: rest, acc =>
    if c.isDigit then decValAux rest (acc * 10 + (c.toNat - '0'.toNat)) else none

/-- Embeds strconv.ParseInt(s, 10, 64): optional sign, nonempty digits, int64 range. -/
def goParseInt64 (s : String) : Option Int :=
  match s.data with
  | [] => none
  | '+' :: rest =>
    if rest = [] then none
    else (decValAux rest 0).bind fun n =>
      if n ≤ 9223372036854775807 then some (n : Int) else none
  | '-' :: rest =>
    if rest = [] then none
    else (decValAux rest 0).bind fun n =>
      if n ≤ 9223372036854775808 then some (-(n : Int)) else none
  | l =>
    (decValAux l 0).bind fun n =>
      if n ≤ 9223372036854775807 then some (n : Int) else none

/-- Go string slicing s[i:]: in bounds only when i is at most the length; out of
bounds is a runtime panic, modelled as none. -/
def goStringSlice (s : String) (i : Nat) : Option String :=
  if i ≤ s.data.length then some ⟨s.data.drop i⟩ else none

/-! ## path.Clean and path.Join (used to turn exclude directories into package identifiers) -/

/-- Splits a character list on slashes, producing path components. -/
def splitSlashAux : List Char → List Char → List (List Char)
  | [], acc => [acc.reverse]
  | c :: rest, acc =>
    if c = '/' then acc.reverse :: splitSlashAux rest []
    else splitSlashAux rest (c :: acc)

/-- Lexical core of path.Clean: processes components against a stack, eliminating
empty components, dots, and dot-dots (rooted paths absorb leading dot-dots). -/
def cleanCore (rooted : Bool) : List (List Char) → List (List Char) → List (List Char)
  | stack, [] => stack
  | stack, c :: rest =>
    if c = [] ∨ c = ['.'] then cleanCore rooted stack rest
    else if c = ['.', '.'] then
      match stack with
      | top :: s' =>
        if top = ['.', '.'] then cleanCore rooted (c :: top :: s') rest
        else cleanCore rooted s' rest
      | [] => if rooted then cleanCore rooted [] rest else cleanCore rooted [['.', '.']] rest
    else cleanCore rooted (c :: stack) rest

/-- Joins components back with single slashes. -/
def joinComps : List (List Char) → List Char
  | [] => []
  | [c] => c
  | c :: rest => c ++ '/' :: joinComps rest

/-- Embeds path.Clean: shortest lexically equivalent path. -/
def pathClean (p : String) : String :=
  if p.data = [] then "."
  else
    let rooted := p.data.headI = '/'
    let comps := (cleanCore rooted [] (splitSlashAux p.data [])).reverse
    let joined := joinComps comps
    if rooted then ⟨'/' :: joined⟩
    else if joined = [] then "." else ⟨joined⟩

/-- Embeds path.Join(a, b): the elements from the first nonempty one onward,
joined with a slash and cleaned; empty when both are empty. -/
def pathJoin2 (a b : String) : String :=
  if a = "" then (if b = "" then "" else pathClean b)
  else pathClean ⟨a.data ++ '/' :: b.data⟩

/-! ## PathClassifier and FilterEngine (main.go categorizeIncludesExcludes, filterPackages) -/

/-- The package test of the categorize loop (main.go line 207): the item
starts with the module name plus a slash or equals the module name. -/
def isPkgToken (moduleName item : String) : Bool :=
  strHasPref item (moduleName ++ "/") || item == moduleName

/-- One step of the categorize loop: a token naming the module or extending it
with a slash is a package, anything else a directory (main.go lines 203-215). -/
def categorizeStep (moduleName : String) (acc : List String × List String)
    (item : String) : List String × List String :=
  if isPkgToken moduleName item then (acc.1, acc.2 ++ [item])
  else (acc.1 ++ [item], acc.2)

/-- Embeds categorizeIncludesExcludes: separates tokens into directories and
packages based on the module name, preserving order. -/
def categorizeIncludesExcludes (items : List String) (moduleName : String) :
    List String × List String :=
  items.foldl (categorizeStep moduleName) ([], [])

/-- Embeds filterPackages (main.go lines 336-361): returns all packages when no
excludes are given, otherwise drops every package having any exclude entry as a
prefix, where exclude directories are first joined under the module name. -/
def filterPackages (packages excludeDirs excludePkgs : List String)
    (moduleName : String) : List String :=
  if excludeDirs.isEmpty && excludePkgs.isEmpty then packages
  else
    let excl := excludePkgs ++ excludeDirs.map (fun e => pathJoin2 moduleName e)
    packages.filter fun pkg => !(excl.any fun e => strHasPref pkg e)

/-! ## StalenessOracle (main.go hasDocFile, needsDocUpdate, extractDocumentation)

External observations made by one needsDocUpdate/extractDocumentation call are
recorded in a DocState: the go-list package-directory resolution (cached, so
both calls in needsDocUpdate agree), the stat of doc.go, the stat of files in
the output directory, and the git query results. -/

/-- Result of an os.Stat call: the file is absent, the stat itself failed, or
the file exists with the given modification time. -/
inductive StatRes where
  | notExist : StatRes
  | statError : StatRes
  | found (modTime : Int) : StatRes
deriving DecidableEq, Repr

/-- External observations backing one staleness check for one package. -/
structure DocState where
  pkgDir : Option String
  docGoStat : StatRes
  docFileStat : String → StatRes
  isGitRepo : Bool
  gitStatus : Option String
  gitLog : Option String

/-- Embeds hasDocFile (main.go lines 384-402): resolves the package directory
and stats doc.go; the pair mirrors the Go (bool, error) return. -/
def hasDocFile (st : DocState) : Bool × Option Unit :=
  match st.pkgDir with
  | none => (false, some ())
  | some _ =>
    match st.docGoStat with
    | .notExist => (false, none)
    | .statError => (false, some ())
    | .found _ => (true, none)

/-- Name of the output file that needsDocUpdate stats (main.go line 418): the
full package identifier with slashes replaced. -/
def docCheckFileName (pkg : String) : String :=
  "doc_" ++ replaceSlash pkg ++ ".txt"

/-- Name of the output file that extractDocumentation writes (main.go line
502): the package identifier with the module prefix trimmed first. -/
def docWriteFileName (moduleName pkg : String) : String :=
  "doc_" ++ replaceSlash (strTrimPref pkg (moduleName ++ "/")) ++ ".txt"

/-- Embeds needsDocUpdate (main.go lines 405-468); the pair mirrors the Go
(bool, error) return. The decision chain: missing doc.go is a silent no-op;
a missing output doc file forces an update; a non-git project always updates;
uncommitted changes, a failed or empty git log, and an unparseable timestamp
all update; otherwise update exactly when the doc file's modification time is
strictly before the last commit time. -/
def needsDocUpdate (pkg : String) (st : DocState) : Bool × Option Unit :=
  match hasDocFile st with
  | (_, some e) => (false, some e)
  | (hasDoc, none) =>
    if !hasDoc then (false, none)
    else
      match st.docFileStat (docCheckFileName pkg) with
      | .notExist => (true, none)
      | .statError => (false, some ())
      | .found docMod =>
        if !st.isGitRepo then (true, none)
        else
          match st.pkgDir with
          | none => (false, some ())
          | some _ =>
            if (match st.gitStatus with
                | some out => decide (0 < out.data.length)
                | none => false) then (true, none)
            else
              match st.gitLog with
              | none => (true, none)
              | some out =>
                if out.data.length = 0 then (true, none)
                else
                  match goParseInt64 (goTrimSpace out) with
                  | none => (true, none)
                  | some commitTime => (decide (docMod < commitTime), none)

/-- Inputs of one extractDocumentation call: the staleness observations plus
the go doc output (none models a failed command) and the write outcome. -/
structure ExtractEnv where
  docState : DocState
  goDocOut : Option String
  writeErr : Bool

/-- Observable outcome of one extractDocumentation call.  The skipped
constructor records whether the skip was logged as a missing doc.go;
panicSlice marks the out-of-bounds string slice on the go doc argument. -/
inductive ExtractStep where
  | errBeforeDoc : ExtractStep
  | skipped (noDocGo : Bool) : ExtractStep
  | panicSlice : ExtractStep
  | docCmdFailed : ExtractStep
  | docEmpty : ExtractStep
  | writeFailed (file : String) : ExtractStep
  | wrote (file : String) : ExtractStep
deriving DecidableEq, Repr

/-- Embeds extractDocumentation (main.go lines 471-514): consults
needsDocUpdate, skips or errors accordingly, slices the package identifier
past the module name to build the go doc argument, rejects empty output, and
writes the trimmed-name doc file. -/
def extractDocumentation (moduleName pkg : String) (env : ExtractEnv) : ExtractStep :=
  match needsDocUpdate pkg env.docState with
  | (_, some _) => .errBeforeDoc
  | (false, none) =>
    (match hasDocFile env.docState with
     | (false, none) => .skipped true
     | _ => .skipped false)
  | (true, none) =>
    match goStringSlice pkg (moduleName.data.length + 1) with
    | none => .panicSlice
    | some _ =>
      match env.goDocOut with
      | none => .docCmdFailed
      | some out =>
        if out.data.length ≤ 1 then .docEmpty
        else if env.writeErr then .writeFailed (docWriteFileName moduleName pkg)
        else .wrote (docWriteFileName moduleName pkg)

/-- True exactly when the outcome shows the external go doc command ran. -/
def invokedGoDoc : ExtractStep → Bool
  | .docCmdFailed => true
  | .docEmpty => true
  | .writeFailed _ => true
  | .wrote _ => true
  | _ => false

/-! ## filepath.Walk and the two symlink collectors

The project tree is a rose tree of named files and directories.  The walk
driver mirrors filepath.Walk: the callback may continue, skip (SkipDir), or
fail; SkipDir on a directory prunes its subtree, SkipDir from a file skips the
remaining entries of the containing directory, and any other error aborts the
walk.  Callbacks thread the list of symlink names created so far. -/

/-- A file-system subtree with named nodes. -/
inductive FsNode where
  | file (name : String) : FsNode
  | dir (name : String) (children : List FsNode) : FsNode
deriving Repr

/-- Base name of a node, as info.Name() reports it. -/
def fsName : FsNode → String
  | .file n => n
  | .dir n _ => n

/-- True on directory nodes, as info.IsDir() reports it. -/
def fsIsDir : FsNode → Bool
  | .file _ => false
  | .dir _ _ => true

/-- Result of one callback invocation or one subtree walk: continue, SkipDir,
or a real error. -/
inductive WRes where
  | ok : WRes
  | skip : WRes
  | err : WRes
deriving DecidableEq, Repr

/-- Callback type of the walk: state, full path, isDir, base name. -/
abbrev WalkFn := List String → String → Bool → String → List String × WRes

mutual

/-- Embeds the recursive walk function of filepath.Walk on one node whose full
path is already computed. -/
def walkNodeAt (f : WalkFn) (path : String) : FsNode → List String → List String × WRes
  | .file name, s => f s path false name
  | .dir name cs, s =>
    match f s path true name with
    | (s1, .skip) => (s1, .ok)
    | (s1, .err) => (s1, .err)
    | (s1, .ok) => walkChildren f path cs s1

/-- Walks the entries of a directory in order; a SkipDir surfacing from a
directory child is absorbed, anything else that is not ok stops the loop. -/
def walkChildren (f : WalkFn) (dirPath : String) : List FsNode → List String → List String × WRes
  | [], s => (s, .ok)
  | c :: cs, s =>
    match walkNodeAt f (pathJoin2 dirPath (fsName c)) c s with
    | (s1, .ok) => walkChildren f dirPath cs s1
    | (s1, .skip) =>
      if fsIsDir c then walkChildren f dirPath cs s1 else (s1, .skip)
    | (s1, .err) => (s1, .err)

end

/-- Embeds filepath.Walk: runs the recursion from the root and converts a
surfacing SkipDir into success; the boolean reports a real error. -/
def filepathWalk (f : WalkFn) (root : String) (t : FsNode) : List String × Bool :=
  match walkNodeAt f root t [] with
  | (s, .err) => (s, true)
  | (s, _) => (s, false)

/-- Embeds filepath.Ext on a base name: the suffix starting at the final dot,
empty when there is none. -/
def filepathExt (name : String) : String :=
  if '.' ∈ name.data then ⟨'.' :: (name.data.reverse.takeWhile (fun c => c ≠ '.')).reverse⟩
  else ""

/-- The allow-listed source extensions of symlinkDirectoryFiles (main.go lines
617-623). -/
def allowedExt (e : String) : Bool :=
  e == ".go" || e == ".proto" || e == ".tmpl" || e == ".txt"

/-- True when a path is absolute, as filepath.IsAbs reports on unix. -/
def isAbsPath (p : String) : Bool := strHasPref p "/"

/-- Embeds the walk callback of symlinkDirectoryFiles (main.go lines 626-678).
The first branch embeds the commented skip of subdirectories, which returns
nil rather than filepath.SkipDir and therefore does not prune the subtree.
The parameter ignQ gives git check-ignore answers (none models a query error,
which the code logs and then keeps going); linkFail marks paths whose
os.Symlink call fails; preExisting are link names already present in the sync
directory, on which os.Symlink also fails. -/
def symlinkWalkFn (dirPath dirPref : String) (isGitRepo : Bool)
    (ignQ : String → Option Bool) (linkFail : String → Bool)
    (preExisting : List String) : WalkFn :=
  fun s path isDir name =>
    if isDir && path ≠ dirPath then (s, .ok)
    else if isGitRepo && !isDir && ignQ path == some true then (s, .ok)
    else if !isDir && allowedExt (filepathExt name) then
      let link := dirPref ++ name
      if linkFail path || link ∈ preExisting ++ s then (s, .err)
      else (s ++ [link], .ok)
    else (s, .ok)

/-- Embeds symlinkDirectoryFiles (main.go lines 597-685) on the subtree rooted
at dirPath.  The relDir argument abstracts the filepath.Rel(projectPath,
dirPath) result used for the name prefix; the returned boolean reports a walk
error. -/
def symlinkDirectoryFiles (dirPath relDir : String) (tree : FsNode)
    (isGitRepo : Bool) (ignQ : String → Option Bool) (linkFail : String → Bool)
    (preExisting : List String) : List String × Bool :=
  let dirPref := "src_" ++ replaceSlash relDir ++ "_"
  filepathWalk (symlinkWalkFn dirPath dirPref isGitRepo ignQ linkFail preExisting)
    dirPath tree

/-- Symlink name assigned to a README found at the given project-relative path
(main.go line 569). -/
def readmeLinkName (relPath : String) : String :=
  "readme_" ++ replaceSlash relPath

/-- Embeds the walk callback of findAndSymlinkReadmes (main.go lines 519-591):
explicitly excluded directories prune their subtree, git-ignored directories
prune and git-ignored files are skipped (a failed ignore query only logs and
keeps going), and each README.md is symlinked under its readme name unless a
link already exists; a failed filepath.Rel or os.Symlink call aborts the walk
with an error. -/
def readmeWalkFn (projectPath : String) (excludeDirs : List String)
    (isGitRepo : Bool) (ignQ : String → Option Bool)
    (relOf : String → Option String) (linkFail : String → Bool)
    (preExisting : List String) : WalkFn :=
  fun s path isDir name =>
    if isDir && excludeDirs.any (fun e =>
        let ep := if isAbsPath e then e else pathJoin2 projectPath e
        path == ep || strHasPref path (ep ++ "/")) then (s, .skip)
    else if isGitRepo && ignQ path == some true then
      (if isDir then (s, .skip) else (s, .ok))
    else if !isDir && goToLower name == "readme.md" then
      match relOf path with
      | none => (s, .err)
      | some rel =>
        let link := readmeLinkName rel
        if link ∈ preExisting ++ s then (s, .ok)
        else if linkFail path then (s, .err)
        else (s ++ [link], .ok)
    else (s, .ok)

/-- Embeds findAndSymlinkReadmes (main.go lines 517-594): walks the whole
project tree with the readme callback; the boolean reports the error that
main treats as fatal. -/
def findAndSymlinkReadmes (projectPath : String) (tree : FsNode)
    (excludeDirs : List String) (isGitRepo : Bool) (ignQ : String → Option Bool)
    (relOf : String → Option String) (linkFail : String → Bool)
    (preExisting : List String) : List String × Bool :=
  filepathWalk (readmeWalkFn projectPath excludeDirs isGitRepo ignQ relOf linkFail preExisting)
    projectPath tree

/-! ## SyncOrchestrator (main.go lines 137-181)

The orchestrator's control skeleton after resource acquisition: the
per-package extraction loop (warn and continue on error), the README walk
(fatal on error), the include-directory source loop (warn and continue on
error, deduplicated by resolved directory), and the tree rendering (fatal on
error). -/

/-- Inputs of one orchestrated run, with every external observation recorded
per item. -/
structure SyncEnv where
  moduleName : String
  packages : List String
  extractEnvOf : String → ExtractEnv
  projectPath : String
  projectTree : FsNode
  excludeDirs : List String
  includeDirs : List String
  includePkgs : List String
  isGitRepo : Bool
  ignQ : String → Option Bool
  relOf : String → Option String
  readmeLinkFail : String → Bool
  preExisting : List String
  pkgDirOf : String → Option String
  dirTreeOf : String → FsNode
  srcRelOf : String → String
  srcLinkFail : String → Bool
  treeCmdFails : Bool

/-- Observable outcome of one orchestrated run. -/
structure RunResult where
  docResults : List (String × ExtractStep)
  readmeLinks : List String
  srcProcessedDirs : List String
  srcLinks : List String
  fatal : Bool
  completed : Bool
deriving Repr

/-- Embeds the include loop of main (lines 159-174): resolve each included
package to a directory (skip on failure with a warning), process each
resolved directory at most once, and keep going when a directory's symlink
collection fails. -/
def srcLoopAux (env : SyncEnv) : List String → List String → List String →
    List String × List String
  | [], seen, links => (seen, links)
  | pkg :: rest, seen, links =>
    match env.pkgDirOf pkg with
    | none => srcLoopAux env rest seen links
    | some d =>
      if d ∈ seen then srcLoopAux env rest seen links
      else
        let r := symlinkDirectoryFiles d (env.srcRelOf d) (env.dirTreeOf d)
          env.isGitRepo env.ignQ env.srcLinkFail env.preExisting
        srcLoopAux env rest (seen ++ [d]) (links ++ r.1)

/-- The include items in main's order: explicit include packages first, then
each include directory joined under the module name (lines 154-156). -/
def includeItems (env : SyncEnv) : List String :=
  env.includePkgs ++ env.includeDirs.map (fun d => pathJoin2 env.moduleName d)

/-- Runs the include-directory source loop of main. -/
def runSrcLoop (env : SyncEnv) : List String × List String :=
  srcLoopAux env (includeItems env) [] []

/-- Embeds the orchestration skeleton of main (lines 137-181): extraction for
every filtered package with warn-and-continue on per-package errors, then the
README walk whose error exits the run, then the include source loop, then the
tree rendering whose error also exits the run. -/
def runSync (env : SyncEnv) : RunResult :=
  let docResults := env.packages.map fun p =>
    (p, extractDocumentation env.moduleName p (env.extractEnvOf p))
  match findAndSymlinkReadmes env.projectPath env.projectTree env.excludeDirs
      env.isGitRepo env.ignQ env.relOf env.readmeLinkFail env.preExisting with
  | (links, true) =>
    { docResults := docResults, readmeLinks := links, srcProcessedDirs := [],
      srcLinks := [], fatal := true, completed := false }
  | (links, false) =>
    let src := runSrcLoop env
    if env.treeCmdFails then
      { docResults := docResults, readmeLinks := links, srcProcessedDirs := src.1,
        srcLinks := src.2, fatal := true, completed := false }
    else
      { docResults := docResults, readmeLinks := links, srcProcessedDirs := src.1,
        srcLinks := src.2, fatal := false, completed := true }

/-- Modelled from the spec: the propagation policy of section 7 says the set
of items a loop processes does not depend on per-item collection failures.
This computes the resolved, deduplicated directory list of the include loop
from the resolutions alone, with no error outcome in sight. -/
def processedDirsSpec : List String → (String → Option String) → List String → List String
  | [], _, seen => seen
  | pkg :: rest, f, seen =>
    match f pkg with
    | none => processedDirsSpec rest f seen
    | some d =>
      if d ∈ seen then processedDirsSpec rest f seen
      else processedDirsSpec rest f (seen ++ [d])

/-! ## The flat naming scheme and concrete run states used by the theorems -/

/-- The shared flat naming scheme of the sync directory (main.go lines 418,
502, 569 and 615): a category marker followed by the source path with slashes
replaced by underscores. -/
def flatNameOf (cat p : String) : String := cat ++ replaceSlash p

/-- Inverse character replacement, used to invert replaceSlash on
underscore-free paths. -/
def unSlash (c : Char) : Char := if c = '_' then '/' else c

/-- Recovers the category marker of a flat name from its first character. -/
def decodeCat (s : String) : String :=
  match s.data with
  | 'd' :: _ => "doc_"
  | 'r' :: _ => "readme_"
  | _ => "src_"

/-- Recovers the source path of a flat name built with the given category. -/
def stripCat (cat s : String) : String :=
  ⟨(s.data.drop cat.data.length).map unSlash⟩

/-- Staleness observations of the first pass over a fresh output directory:
committed git state, last commit at time 100, no doc file yet. -/
def c1Pass1St : DocState :=
  { pkgDir := some "/proj/util", docGoStat := .found 0,
    docFileStat := fun _ => .notExist, isGitRepo := true,
    gitStatus := some "", gitLog := some "100\n" }

/-- Extraction inputs of the first pass: the go doc command succeeds. -/
def c1Env : ExtractEnv :=
  { docState := c1Pass1St, goDocOut := some "package util documentation",
    writeErr := false }

/-- Staleness observations of the second pass: the output directory now holds
exactly the file the first pass wrote, with modification time 200, later than
the last commit. -/
def c1Pass2St : DocState :=
  { c1Pass1St with docFileStat := fun f =>
      if f = docWriteFileName "example.com/app" "example.com/app/util" then .found 200
      else .notExist }

/-- Staleness observations whose doc file is stale: modification time 5,
last commit at time 7. -/
def c3St : DocState :=
  { pkgDir := some "/proj/x", docGoStat := .found 0,
    docFileStat := fun f =>
      if f = docCheckFileName "example.com/app/x" then .found 5 else .notExist,
    isGitRepo := true, gitStatus := some "", gitLog := some "7\n" }

/-- Staleness observations of a package directory without doc.go. -/
def c4St : DocState :=
  { pkgDir := some "/proj/y", docGoStat := .notExist,
    docFileStat := fun _ => .notExist, isGitRepo := false,
    gitStatus := none, gitLog := none }

/-- Extraction inputs for a package directory without doc.go. -/
def c4Env : ExtractEnv :=
  { docState := c4St, goDocOut := some "text", writeErr := false }

/-- A directory tree with one immediate source file, one disallowed file, and
one source file inside a subdirectory. -/
def c5Tree : FsNode :=
  .dir "pkg" [.file "a.go", .file "notes.md", .dir "sub" [.file "b.go"]]

/-- Staleness observations of a first generation: doc.go present, no doc file
in the output directory yet. -/
def c9St : DocState :=
  { pkgDir := some "/proj", docGoStat := .found 0,
    docFileStat := fun _ => .notExist, isGitRepo := false,
    gitStatus := none, gitLog := none }

/-- Extraction inputs for a first generation: needsDocUpdate reports an
update. -/
def c9Env : ExtractEnv :=
  { docState := c9St, goDocOut := some "text", writeErr := false }

/-- Staleness observations whose doc.go stat fails. -/
def c10St : DocState :=
  { pkgDir := some "/proj/z", docGoStat := .statError,
    docFileStat := fun _ => .notExist, isGitRepo := true,
    gitStatus := some "", gitLog := some "3\n" }

/-- Extraction inputs whose staleness check fails internally. -/
def c10Env : ExtractEnv :=
  { docState := c10St, goDocOut := some "text", writeErr := false }

/-- A project tree with a README at the root and another in subdirectory a. -/
def c8Tree : FsNode :=
  .dir "proj" [.file "README.md", .dir "a" [.file "README.md"]]

/-- Project-relative paths of the two READMEs, as filepath.Rel returns them. -/
def c8RelOf : String → Option String := fun p =>
  if p = "/proj/README.md" then some "README.md"
  else if p = "/proj/a/README.md" then some "a/README.md" else none

/-- A run whose first README symlink fails while a second README and a
resolvable include package remain to be processed. -/
def c8Env : SyncEnv :=
  { moduleName := "example.com/app", packages := [],
    extractEnvOf := fun _ => c9Env, projectPath := "/proj", projectTree := c8Tree,
    excludeDirs := [], includeDirs := [], includePkgs := ["example.com/app/x"],
    isGitRepo := false, ignQ := fun _ => some false, relOf := c8RelOf,
    readmeLinkFail := fun p => p = "/proj/README.md", preExisting := [],
    pkgDirOf := fun p => if p = "example.com/app/x" then some "/proj/x" else none,
    dirTreeOf := fun _ => .dir "x" [.file "x.go"], srcRelOf := fun _ => "x",
    srcLinkFail := fun _ => false, treeCmdFails := false }

/-! ## Helper lemmas -/

/-- Negation of an any is an all of the negations. -/
lemma not_any_eq_all_not (l : List α) (p : α → Bool) :
    (!(l.any p)) = l.all fun a => !(p a) := by
  induction l with
  | nil => rfl
  | cons a t ih => simp [List.any_cons, List.all_cons, Bool.not_or, ih]

/-- The categorize fold partitions its input around the package test while
keeping order, for any accumulator. -/
lemma categorize_foldl (m : String) (items : List String) (acc : List String × List String) :
    items.foldl (categorizeStep m) acc
      = (acc.1 ++ items.filter (fun i => !(isPkgToken m i)),
         acc.2 ++ items.filter fun i => isPkgToken m i) := by
  induction items generalizing acc with
  | nil => simp
  | cons a t ih =>
    rw [List.foldl_cons, ih]
    cases h : isPkgToken m a <;>
      simp [categorizeStep, h, List.filter_cons, List.append_assoc]

/-- Appending strings appends their character lists. -/
lemma string_data_append (s t : String) : (s ++ t).data = s.data ++ t.data := rfl

/-- Replacing a slash and mapping back is the identity away from underscores. -/
lemma unSlash_slashToU {c : Char} (h : c ≠ '_') : unSlash (slashToU c) = c := by
  by_cases h1 : c = '/' <;> simp [slashToU, unSlash, h1, h]

/-- The category marker of a flat name is recoverable from its first character. -/
lemma decodeCat_flat (c p : String) (hc : c ∈ ["doc_", "readme_", "src_"]) :
    decodeCat (flatNameOf c p) = c := by
  simp only [List.mem_cons, List.not_mem_nil, or_false] at hc
  rcases hc with rfl | rfl | rfl <;> rfl

/-- The source path of a flat name is recoverable when it holds no underscore. -/
lemma stripCat_flat (c p : String) (hp : '_' ∉ p.data) :
    stripCat c (flatNameOf c p) = p := by
  unfold stripCat flatNameOf
  rw [string_data_append]
  have hd : (replaceSlash p).data = p.data.map slashToU := rfl
  rw [hd, List.drop_left, List.map_map]
  have hmap : p.data.map (unSlash ∘ slashToU) = p.data := by
    have h := List.map_congr_left (l := p.data) (f := unSlash ∘ slashToU) (g := id)
      (fun a ha => unSlash_slashToU (fun hh => hp (hh ▸ ha)))
    simpa using h
  rw [hmap]

/-- The directories processed by the include loop depend only on the
resolutions, not on any symlink error outcome. -/
lemma srcLoopAux_dirs (env : SyncEnv) (items seen links : List String) :
    (srcLoopAux env items seen links).1 = processedDirsSpec items env.pkgDirOf seen := by
  induction items generalizing seen links with
  | nil => rfl
  | cons p rest ih =>
    unfold srcLoopAux processedDirsSpec
    cases env.pkgDirOf p with
    | none => exact ih seen links
    | some d =>
      by_cases hd : d ∈ seen <;> simp [hd, ih]

/-! ## Claim theorems -/

/-- Claim C1 (code bug witness): on a committed git project, the first pass
extracts and writes the file doc_util.txt for package example.com/app/util,
yet the second pass's staleness check still reports an update, because
needsDocUpdate stats the differently derived name doc_example.com_app_util.txt
(the third conjunct), which the extraction never writes.  The sync is
therefore not idempotent: the package is marked for a second extraction even
though its first extraction succeeded and nothing changed. -/
theorem secondPass_reextracts :
    extractDocumentation "example.com/app" "example.com/app/util" c1Env
      = .wrote "doc_util.txt"
    ∧ needsDocUpdate "example.com/app/util" c1Pass2St = (true, none)
    ∧ docWriteFileName "example.com/app" "example.com/app/util"
        ≠ docCheckFileName "example.com/app/util" := by
  refine ⟨by decide, by decide, by decide⟩

/-- Claim C2: filterPackages returns exactly the discovered packages having no
excluded entry as a prefix, where excluded directories are first joined under
the module name; the result is a subsequence of the input in discovery order;
and the spec scenario with module example.com/app, exclude directory internal
filters to the root package alone. -/
theorem filterPackages_correct (ps eds eps : List String) (m : String) :
    filterPackages ps eds eps m
      = ps.filter (fun pkg =>
          (eps ++ eds.map fun e => pathJoin2 m e).all fun e => !(strHasPref pkg e))
    ∧ (filterPackages ps eds eps m).Sublist ps
    ∧ filterPackages ["example.com/app", "example.com/app/internal"] ["internal"] []
        "example.com/app" = ["example.com/app"] := by
  have hfil : filterPackages ps eds eps m
      = ps.filter (fun pkg =>
          (eps ++ eds.map fun e => pathJoin2 m e).all fun e => !(strHasPref pkg e)) := by
    unfold filterPackages
    split
    · next h =>
      obtain ⟨h1, h2⟩ := by simpa using h
      simp [h1, h2]
    · simp only [not_any_eq_all_not]
  refine ⟨hfil, ?_, by decide⟩
  rw [hfil]
  exact List.filter_sublist ps

/-- Claim C3: when doc.go exists, the doc output file exists, the project is
version controlled, git reports no uncommitted changes, and the last-commit
timestamp is obtained and parsed, needsDocUpdate returns true exactly when
the doc file's modification time is strictly earlier than the commit time; a
commit time strictly later forces true, and a doc modification time at or
past the commit time forces false. -/
theorem needsDocUpdate_freshness (pkg d : String) (st : DocState)
    (dgm docMod commitTime : Int) (logOut : String)
    (hdir : st.pkgDir = some d)
    (hdoc : st.docGoStat = .found dgm)
    (hfile : st.docFileStat (docCheckFileName pkg) = .found docMod)
    (hgit : st.isGitRepo = true)
    (hstatus : st.gitStatus = some "")
    (hlog : st.gitLog = some logOut)
    (hne : logOut.data ≠ [])
    (hparse : goParseInt64 (goTrimSpace logOut) = some commitTime) :
    needsDocUpdate pkg st = (decide (docMod < commitTime), none)
    ∧ (docMod < commitTime → needsDocUpdate pkg st = (true, none))
    ∧ (commitTime ≤ docMod → needsDocUpdate pkg st = (false, none)) := by
  have h1 : needsDocUpdate pkg st = (decide (docMod < commitTime), none) := by
    unfold needsDocUpdate hasDocFile
    rw [hdir, hdoc, hfile, hgit, hstatus, hlog]
    have hlen : logOut.length = logOut.data.length := rfl
    have hne2 : logOut.length ≠ 0 := by
      rw [hlen]
      exact fun h => hne (List.length_eq_zero.mp h)
    simp [List.length_eq_zero, hne, hne2, hparse]
  refine ⟨h1, fun h => ?_, fun h => ?_⟩
  · rw [h1, decide_eq_true h]
  · rw [h1, decide_eq_false (not_lt.mpr h)]

/-- Witness for claim C3: a doc file modified at time 5 against a last commit
at time 7 is reported stale. -/
theorem needsDocUpdate_freshness_witness :
    needsDocUpdate "example.com/app/x" c3St = (true, none) := by
  have h := needsDocUpdate_freshness "example.com/app/x" "/proj/x" c3St 0 5 7 "7\n"
    rfl rfl (by decide) rfl rfl rfl (by decide) (by decide)
  exact h.2.1 (by decide)

/-- Claim C4: when the package directory resolves but holds no doc.go,
needsDocUpdate returns false with no error, extractDocumentation skips with
the no-doc.go reason, and the go doc command is never invoked — for every
version-control state, output-directory state, and git query outcome. -/
theorem noDocGo_silent_noop (m pkg d : String) (env : ExtractEnv)
    (hdir : env.docState.pkgDir = some d)
    (hdoc : env.docState.docGoStat = .notExist) :
    needsDocUpdate pkg env.docState = (false, none)
    ∧ extractDocumentation m pkg env = .skipped true
    ∧ invokedGoDoc (extractDocumentation m pkg env) = false := by
  have hh : hasDocFile env.docState = (false, none) := by
    unfold hasDocFile
    rw [hdir, hdoc]
  have hn : needsDocUpdate pkg env.docState = (false, none) := by
    unfold needsDocUpdate
    rw [hh]
    simp
  have he : extractDocumentation m pkg env = .skipped true := by
    unfold extractDocumentation
    rw [hn, hh]
  exact ⟨hn, he, by rw [he]; rfl⟩

/-- Witness for claim C4: a concrete package directory without doc.go is a
silent no-op. -/
theorem noDocGo_silent_noop_witness :
    needsDocUpdate "example.com/app/y" c4Env.docState = (false, none)
    ∧ extractDocumentation "example.com/app" "example.com/app/y" c4Env = .skipped true
    ∧ invokedGoDoc (extractDocumentation "example.com/app" "example.com/app/y" c4Env)
        = false :=
  noDocGo_silent_noop "example.com/app" "example.com/app/y" "/proj/y" c4Env rfl rfl

/-- Claim C5 (code bug witness): source collection from an included directory
also links files found inside subdirectories, because the walk callback
returns nil for subdirectories instead of filepath.SkipDir and the walk then
descends into them; here b.go from the subdirectory sub is linked.  The
allow-list half of the claim does hold: notes.md is not linked. -/
theorem symlinkDirectoryFiles_descends :
    symlinkDirectoryFiles "/proj/pkg" "pkg" c5Tree false (fun _ => some false)
      (fun _ => false) [] = (["src_pkg_a.go", "src_pkg_b.go"], false) := by decide

/-- Counterexample for claim C6: replacing slashes by underscores is not
injective, because the replacement character itself may occur in a source
path; the distinct paths a/b and a_b receive the same readme link name. -/
theorem readmeLinkName_collision :
    readmeLinkName "a/b" = readmeLinkName "a_b" ∧ ("a/b" : String) ≠ "a_b" := by decide

/-- Claim C6 as amended: on source paths free of underscores the flat naming
scheme is injective across the three categories — distinct pairs of category
marker and path always produce distinct output filenames. -/
theorem flatNameOf_injective (c1 c2 p1 p2 : String)
    (hc1 : c1 ∈ ["doc_", "readme_", "src_"]) (hc2 : c2 ∈ ["doc_", "readme_", "src_"])
    (h1 : '_' ∉ p1.data) (h2 : '_' ∉ p2.data)
    (hne : (c1, p1) ≠ (c2, p2)) :
    flatNameOf c1 p1 ≠ flatNameOf c2 p2 := by
  intro heq
  have hc : c1 = c2 := by
    have h := congrArg decodeCat heq
    rwa [decodeCat_flat c1 p1 hc1, decodeCat_flat c2 p2 hc2] at h
  subst hc
  have hp : p1 = p2 := by
    have h := congrArg (stripCat c1) heq
    rwa [stripCat_flat c1 p1 h1, stripCat_flat c1 p2 h2] at h
  exact hne (by rw [hp])

/-- Witness for claim C6 as amended: a doc name and a readme name of the same
underscore-free path differ. -/
theorem flatNameOf_injective_witness :
    flatNameOf "doc_" "a/b" ≠ flatNameOf "readme_" "a/b" :=
  flatNameOf_injective "doc_" "readme_" "a/b" "a/b" (by decide) (by decide) (by decide)
    (by decide) (by decide)

/-- Counterexample for claim C7: with an empty module name the token /a is
classified as a package, not a directory, because it starts with the empty
module name followed by a slash. -/
theorem categorize_emptyModule_cex :
    categorizeIncludesExcludes ["/a"] "" = ([], ["/a"])
    ∧ categorizeIncludesExcludes ["/a"] "" ≠ (["/a"], []) := by decide

/-- Claim C7 as amended: classification yields a package exactly when the
token starts with the module name plus a slash or equals the module name, and
a directory otherwise; with an empty module name a token is a package exactly
when it starts with a slash or is itself empty, not never. -/
theorem categorize_spec (items : List String) (m : String) :
    categorizeIncludesExcludes items m
      = (items.filter (fun i => !(isPkgToken m i)), items.filter fun i => isPkgToken m i)
    ∧ categorizeIncludesExcludes items ""
      = (items.filter (fun i => !(strHasPref i "/" || i == "")),
         items.filter fun i => strHasPref i "/" || i == "") := by
  constructor
  · simpa using categorize_foldl m items ([], [])
  · have h := categorize_foldl "" items ([], [])
    have he : ∀ i : String, isPkgToken "" i = (strHasPref i "/" || i == "") := by
      intro i; rfl
    simpa [he] using h

/-- Counterexample for claim C8: one failing README symlink makes the whole
run fatal — no README is linked, and the include loop with its resolvable
package never runs — even though a second README remains, which the final
conjunct shows would be collected were the first symlink not failing. -/
theorem readmeFailure_aborts_cex :
    (runSync c8Env).fatal = true
    ∧ (runSync c8Env).readmeLinks = []
    ∧ (runSync c8Env).srcProcessedDirs = []
    ∧ findAndSymlinkReadmes "/proj" c8Tree [] false (fun _ => some false) c8RelOf
        (fun _ => false) [] = (["readme_README.md", "readme_a_README.md"], false) := by
  refine ⟨by decide, by decide, by decide, by decide⟩

/-- Claim C8 as amended: per-package extraction failures never abort the
extraction loop (every filtered package is attempted), the include loop
processes every resolvable directory exactly once regardless of per-directory
symlink failures, and a failed git ignore query inside the README walk only
degrades to not-ignored; but an error surfacing from the README walk is fatal
to the run and skips the source-collection step entirely. -/
theorem perItem_failures_policy (env : SyncEnv) :
    (runSync env).docResults.map Prod.fst = env.packages
    ∧ (runSrcLoop env).1 = processedDirsSpec (includeItems env) env.pkgDirOf []
    ∧ ((findAndSymlinkReadmes env.projectPath env.projectTree env.excludeDirs
          env.isGitRepo env.ignQ env.relOf env.readmeLinkFail env.preExisting).2 = true →
        (runSync env).fatal = true ∧ (runSync env).srcProcessedDirs = [])
    ∧ (∀ pp eds relOf lf pe s path isDir name,
        readmeWalkFn pp eds true (fun _ => none) relOf lf pe s path isDir name
          = readmeWalkFn pp eds true (fun _ => some false) relOf lf pe s path isDir name) := by
  refine ⟨?_, srcLoopAux_dirs env (includeItems env) [] [], ?_, ?_⟩
  · unfold runSync
    rcases hw : findAndSymlinkReadmes env.projectPath env.projectTree env.excludeDirs
      env.isGitRepo env.ignQ env.relOf env.readmeLinkFail env.preExisting with ⟨links, b⟩
    cases b <;> by_cases ht : env.treeCmdFails <;>
      simp [ht, List.map_map] <;> exact List.map_id' env.packages
  · intro hf
    unfold runSync
    rcases hw : findAndSymlinkReadmes env.projectPath env.projectTree env.excludeDirs
      env.isGitRepo env.ignQ env.relOf env.readmeLinkFail env.preExisting with ⟨links, b⟩
    rw [hw] at hf
    simp at hf
    subst hf
    simp
  · intro pp eds relOf lf pe s path isDir name
    simp [readmeWalkFn]

/-- Witness for claim C8 as amended: in the failing-README run the extraction
loop still covered every package, and the surfaced walk error made the run
fatal with no directory processed. -/
theorem perItem_failures_policy_witness :
    (runSync c8Env).docResults.map Prod.fst = c8Env.packages
    ∧ ((runSync c8Env).fatal = true ∧ (runSync c8Env).srcProcessedDirs = []) := by
  have h := perItem_failures_policy c8Env
  exact ⟨h.1, h.2.2.1 (by decide)⟩

/-- Counterexample for claim C9: the root package, whose identifier equals
the module name, reaches the go doc argument construction when its first
documentation extraction is due, and the slice past the module name is then
out of bounds — a runtime panic, not a safe no-op. -/
theorem rootPackage_panics_cex :
    extractDocumentation "example.com/app" "example.com/app" c9Env = .panicSlice := by
  decide

/-- Claim C9 as amended: for a package identifier that extends the module name
by a slash and a suffix, the slice past the module name is in bounds and
yields exactly the suffix, so extraction never panics on such packages; but on
the root package, whose identifier equals the module name, the same slice is
out of bounds; with an empty module name any nonempty identifier stays in
bounds. -/
theorem extraction_slice_bounds (m t pkg : String) (h : pkg = m ++ "/" ++ t) :
    goStringSlice pkg (m.data.length + 1) = some t
    ∧ goStringSlice m (m.data.length + 1) = none
    ∧ (∀ q : String, q.data ≠ [] →
        goStringSlice q (("" : String).data.length + 1) ≠ none)
    ∧ (∀ env : ExtractEnv, extractDocumentation m pkg env ≠ .panicSlice) := by
  have hdata : pkg.data = (m.data ++ ['/']) ++ t.data := by
    subst h
    simp [show ∀ a b : String, (a ++ b).data = a.data ++ b.data from fun _ _ => rfl]
  have hslice : goStringSlice pkg (m.data.length + 1) = some t := by
    unfold goStringSlice
    rw [hdata]
    have hlen : m.data.length + 1 ≤ ((m.data ++ ['/']) ++ t.data).length := by
      simp
    rw [if_pos hlen]
    have hdrop : (((m.data ++ ['/']) ++ t.data)).drop (m.data.length + 1) = t.data := by
      have hl : m.data.length + 1 = (m.data ++ ['/']).length := by simp
      rw [hl, List.drop_left]
    rw [hdrop]
  refine ⟨hslice, ?_, ?_, ?_⟩
  · unfold goStringSlice
    rw [if_neg (by omega)]
  · intro q hq
    unfold goStringSlice
    have hpos : 1 ≤ q.data.length := List.length_pos.mpr hq
    rw [if_pos (by simpa using hpos)]
    simp
  · intro env
    unfold extractDocumentation
    rcases hnd : needsDocUpdate pkg env.docState with ⟨b, e⟩
    cases e with
    | some u => simp
    | none =>
      cases b with
      | false =>
        rcases hh : hasDocFile env.docState with ⟨b2, e2⟩
        cases e2 <;> cases b2 <;> simp
      | true =>
        simp only [hslice]
        cases hg : env.goDocOut with
        | none => simp
        | some out =>
          simp
          try split <;> first | simp | (split <;> simp)

/-- Witness for claim C9 as amended: slicing the identifier of the proper
subpackage util past the module name is in bounds and yields util. -/
theorem extraction_slice_bounds_witness :
    goStringSlice "example.com/app/util" (("example.com/app" : String).data.length + 1)
      = some "util" :=
  (extraction_slice_bounds "example.com/app" "util" "example.com/app/util" rfl).1

/-- Claim C10: whenever the staleness check itself errors — the package
directory fails to resolve or the doc.go stat fails — needsDocUpdate returns
false together with the error, extractDocumentation forwards the error
without extracting, and the go doc command is never invoked. -/
theorem stalenessError_skips_extraction (m pkg : String) (env : ExtractEnv)
    (h : env.docState.pkgDir = none ∨ env.docState.docGoStat = .statError) :
    needsDocUpdate pkg env.docState = (false, some ())
    ∧ extractDocumentation m pkg env = .errBeforeDoc
    ∧ invokedGoDoc (extractDocumentation m pkg env) = false := by
  have hh : hasDocFile env.docState = (false, some ()) := by
    unfold hasDocFile
    rcases h with h | h
    · rw [h]
    · cases hp : env.docState.pkgDir with
      | none => rfl
      | some dd => rw [h]
  have hn : needsDocUpdate pkg env.docState = (false, some ()) := by
    unfold needsDocUpdate
    rw [hh]
  have he : extractDocumentation m pkg env = .errBeforeDoc := by
    unfold extractDocumentation
    rw [hn]
  exact ⟨hn, he, by rw [he]; rfl⟩

/-- Witness for claim C10: a failing doc.go stat yields false with an error
and no extraction. -/
theorem stalenessError_skips_extraction_witness :
    needsDocUpdate "example.com/app/z" c10Env.docState = (false, some ())
    ∧ extractDocumentation "example.com/app" "example.com/app/z" c10Env = .errBeforeDoc
    ∧ invokedGoDoc (extractDocumentation "example.com/app" "example.com/app/z" c10Env)
        = false :=
  stalenessError_skips_extraction "example.com/app" "example.com/app/z" c10Env
    (Or.inr rfl)

end GoContext
